import Mathlib

/-!
Verification of the example scripts in this repository (planning-pattern
dashboard generator and RAG pipeline).  JavaScript strings are modelled as
`List Char`; JSON values reachable from a SQLite row set are modelled by the
inductive type `JsValue`; throwing code is modelled with `Except`; the mutable
module-level state of the planning example (`dataPointCounter`,
`collectedData`) is threaded explicitly through `ToolState`.
-/

namespace CasaiExamples

/-- JavaScript string whitespace as used by `String.prototype.trim` and the
regex class `\s`, restricted to the ASCII range (the inputs of this repository
are ASCII). -/
def isWsChar (c : Char) : Bool :=
  c = ' ' || c = '\t' || c = '\n' || c = '\r' || c = '\x0b' || c = '\x0c'

/-- Model of `String.prototype.trim`: drop whitespace from both ends. -/
def jsTrim (s : List Char) : List Char :=
  ((s.dropWhile isWsChar).reverse.dropWhile isWsChar).reverse

/-- Decimal digit character (only ever applied to numbers below 10). -/
def digitChar (m : Nat) : Char :=
  if m = 0 then '0' else if m = 1 then '1' else if m = 2 then '2'
  else if m = 3 then '3' else if m = 4 then '4' else if m = 5 then '5'
  else if m = 6 then '6' else if m = 7 then '7' else if m = 8 then '8'
  else '9'

/-- Fuel-driven decimal printer for natural numbers (the fuel `n + 1` always
suffices because `n / 10 < n` for `n ≥ 10`). -/
def natToDecimalAux : Nat → Nat → List Char
  | 0, _ => []
  | fuel + 1, n =>
    if n < 10 then [digitChar n]
    else natToDecimalAux fuel (n / 10) ++ [digitChar (n % 10)]

/-- Model of JavaScript number/BigInt printing for non-negative integers,
as produced by template interpolation such as the backtick template with
dollar-brace pointId. -/
def natToDecimal (n : Nat) : List Char := natToDecimalAux (n + 1) n

/-- Model of printing for (possibly negative) integers, e.g.
`BigInt.prototype.toString`. -/
def intToDecimal : Int → List Char
  | .ofNat n => natToDecimal n
  | .negSucc m => '-' :: natToDecimal (m + 1)

/-- Value of a digit string, used to prove that decimal printing is injective. -/
def decimalVal (s : List Char) : Nat :=
  s.foldl (fun acc c => 10 * acc + (c.toNat - 48)) 0

/-- JavaScript values that can appear in a SQLite row set or in the data the
planning example serializes: JSON scalars plus `bigint` and `Date`.  Numbers
are modelled by their integer value (`better-sqlite3` returns integers and
floats; none of the verified properties depend on float formatting). -/
inductive JsValue where
  | null : JsValue
  | bool (b : Bool) : JsValue
  | num (i : Int) : JsValue
  | str (s : List Char) : JsValue
  | bigint (i : Int) : JsValue
  | date (iso : List Char) : JsValue
  | arr (elems : List JsValue) : JsValue
  | obj (fields : List (List Char × JsValue)) : JsValue

mutual

/-- Executable size measure of a `JsValue`, used as serialization fuel. -/
def jsSize : JsValue → Nat
  | .arr xs => 1 + jsSizeList xs
  | .obj fs => 1 + jsSizeFields fs
  | _ => 1

/-- Size of a list of values. -/
def jsSizeList : List JsValue → Nat
  | [] => 1
  | x :: xs => 1 + jsSize x + jsSizeList xs

/-- Size of an object field list. -/
def jsSizeFields : List (List Char × JsValue) → Nat
  | [] => 1
  | p :: ps => 1 + jsSize p.2 + jsSizeFields ps

end

/-- `Number.MAX_SAFE_INTEGER`. -/
def jsMaxSafeInteger : Nat := 2 ^ 53 - 1

/-- Model of the source's `previewReplacer` (6-planning/index.ts).  For a
bigint `i` the source computes `Number(value)` and tests
`Number.isSafeInteger`; under IEEE-754 double semantics that test succeeds
exactly when `|i| ≤ 2^53 - 1` (conversion of any larger bigint rounds to a
double of magnitude ≥ 2^53, which is not a safe integer), so the branch is
modelled by that inequality.  `value.toString()` on a bigint is its decimal
string, and `toISOString` output is carried verbatim by the `date`
constructor. -/
def previewReplacer : JsValue → JsValue
  | .bigint i => if i.natAbs ≤ jsMaxSafeInteger then .num i else .str (intToDecimal i)
  | .date iso => .str iso
  | v => v

/-- Lowercase hexadecimal digit (for the `\u00xx` escapes of control chars). -/
def hexDigitChar (m : Nat) : Char :=
  if m < 10 then digitChar m
  else if m = 10 then 'a' else if m = 11 then 'b' else if m = 12 then 'c'
  else if m = 13 then 'd' else if m = 14 then 'e' else 'f'

/-- JSON string escaping as performed by `JSON.stringify` (QuoteJSONString). -/
def escapeChar (c : Char) : List Char :=
  if c = '"' then ['\\', '"']
  else if c = '\\' then ['\\', '\\']
  else if c = '\n' then ['\\', 'n']
  else if c = '\r' then ['\\', 'r']
  else if c = '\t' then ['\\', 't']
  else if c = '\x08' then ['\\', 'b']
  else if c = '\x0c' then ['\\', 'f']
  else if c.toNat < 32 then
    ['\\', 'u', '0', '0', hexDigitChar (c.toNat / 16), hexDigitChar (c.toNat % 16)]
  else [c]

/-- A JSON string literal: quotes around the escaped characters. -/
def quoteString (s : List Char) : List Char :=
  '"' :: (s.map escapeChar).flatten ++ ['"']

/-- Indentation produced by `JSON.stringify(-, -, 2)` at nesting depth `d`. -/
def indentChars (d : Nat) : List Char := List.replicate (2 * d) ' '

/-- Model of `JSON.stringify(v, previewReplacer, 2)` (6-planning/index.ts
preview serialization), driven by fuel; every recursive call decreases the
fuel by one, and `jsSize v` fuel always suffices because `jsSize` adds at
least one per constructor and per list element.  The replacer is
applied to every serialized value, as `SerializeJSONProperty` does.  A `date`
serializes as its ISO string (in the engine `Date.prototype.toJSON` fires
before the replacer, with the same result).  A raw `bigint` never reaches the
serializer because `previewReplacer` has already rewritten it (in the engine
an unreplaced bigint would throw a TypeError); that branch is an arbitrary
placeholder. -/
def stringifyF : Nat → Nat → JsValue → List Char
  | 0, _, _ => []
  | f + 1, d, v =>
    match previewReplacer v with
    | .null => ['n', 'u', 'l', 'l']
    | .bool b => if b then ['t', 'r', 'u', 'e'] else ['f', 'a', 'l', 's', 'e']
    | .num i => intToDecimal i
    | .str s => quoteString s
    | .bigint _ => ['n', 'u', 'l', 'l']
    | .date iso => quoteString iso
    | .arr [] => ['[', ']']
    | .arr (x :: xs) =>
      ('[' :: '\n' :: []) ++
        List.intercalate (',' :: '\n' :: [])
          (((x :: xs).map (stringifyF f (d + 1))).map
            (fun item => indentChars (d + 1) ++ item)) ++
        ('\n' :: indentChars d) ++ [']']
    | .obj [] => ['{', '}']
    | .obj (p :: ps) =>
      ('{' :: '\n' :: []) ++
        List.intercalate (',' :: '\n' :: [])
          (((p :: ps).map
            (fun q => quoteString q.1 ++ ':' :: ' ' :: stringifyF f (d + 1) q.2)).map
            (fun item => indentChars (d + 1) ++ item)) ++
        ('\n' :: indentChars d) ++ ['}']

/-- Model of plain `JSON.stringify(v)` (no replacer, no indent), used by
`wrapHtml` for the injected `window.dashboardData`.  As above, the `bigint`
branch is unreachable for data the engine can serialize. -/
def stringifyCompactF : Nat → JsValue → List Char
  | 0, _ => []
  | f + 1, v =>
    match v with
    | .null => ['n', 'u', 'l', 'l']
    | .bool b => if b then ['t', 'r', 'u', 'e'] else ['f', 'a', 'l', 's', 'e']
    | .num i => intToDecimal i
    | .str s => quoteString s
    | .bigint _ => ['n', 'u', 'l', 'l']
    | .date iso => quoteString iso
    | .arr xs => '[' :: List.intercalate [','] (xs.map (stringifyCompactF f)) ++ [']']
    | .obj fs =>
      '{' :: List.intercalate [',']
        (fs.map (fun q => quoteString q.1 ++ ':' :: stringifyCompactF f q.2)) ++ ['}']

/-- `JSON.stringify(v, previewReplacer, 2)` with sufficient fuel. -/
def previewSerialize (v : JsValue) : List Char := stringifyF (jsSize v) 0 v

/-- `JSON.stringify(v)` with sufficient fuel. -/
def stringifyCompact (v : JsValue) : List Char := stringifyCompactF (jsSize v) v

/-- The text appended by the preview truncation step:
`,\n   ... ${rows.length - 3} more items\n]` with `extra = rows.length - 3`. -/
def moreItemsNote (extra : Nat) : List Char :=
  (",\n   ... ".toList) ++ natToDecimal extra ++ (" more items\n]".toList)

/-- Model of `json.replace(/\n\]$/, repl)`: without the `m` flag, `$` anchors
only at the very end of the input, so the regex matches exactly when the
string ends in `"\n]"`, and the match (the final two characters) is replaced
by `repl`. -/
def jsReplaceTrailingBracket (json : List Char) (repl : List Char) : List Char :=
  if (('\n' :: [']']).isSuffixOf json) then json.take (json.length - 2) ++ repl
  else json

/-- Model of the preview construction of `dataTool.execute`
(6-planning/index.ts, step 5).  `rows` is the array returned by
`db.prepare(sql).all()`, which is always an array, so the source's
`!Array.isArray(rows)` branch is unreachable and is not modelled. -/
def buildPreviewJson (rows : List JsValue) : List Char :=
  if rows.length ≤ 5 then previewSerialize (.arr rows)
  else
    jsReplaceTrailingBracket (previewSerialize (.arr (rows.take 3)))
      (moreItemsNote (rows.length - 3))

/-- The parsed contents of `input.json` as seen by `loadInput` after
`JSON.parse`: each of the four checked fields is either absent (`none`) or a
string.  (The source casts without validating field types; the shapes of
interest here are the declared string fields.) -/
structure RawDashboardInput where
  datasetName : Option (List Char)
  datasetDescription : Option (List Char)
  databaseUrl : Option (List Char)
  userRequest : Option (List Char)

/-- JavaScript truthiness of an optional string field: `undefined` and the
empty string are falsy, every other string is truthy. -/
def jsTruthyField : Option (List Char) → Bool
  | none => false
  | some s => !s.isEmpty

/-- The error message thrown by `loadInput`. -/
def inputErrorMsg : List Char :=
  ("input.json must contain datasetName, datasetDescription, databaseUrl, and userRequest.".toList)

/-- Model of `loadInput` (6-planning/index.ts): after parsing, throw when any
of the four fields is falsy, otherwise return the parsed record unchanged. -/
def loadInput (parsed : RawDashboardInput) : Except (List Char) RawDashboardInput :=
  if !jsTruthyField parsed.datasetName || !jsTruthyField parsed.datasetDescription
      || !jsTruthyField parsed.databaseUrl || !jsTruthyField parsed.userRequest then
    .error inputErrorMsg
  else
    .ok parsed

/-- Word characters of the regex classes `\w` / `[A-Za-z0-9_]`. -/
def isWordChar (c : Char) : Bool := c.isAlpha || c.isDigit || c = '_'

/-- Model of testing `/^\s*KW\b/i` on `s` for a keyword `kw` given in
lowercase: skip leading whitespace, match `kw` case-insensitively, and require
a word boundary after it. -/
def matchesKeywordStart (s : List Char) (kw : List Char) : Bool :=
  let rest := s.dropWhile isWsChar
  kw.isPrefixOf (rest.map Char.toLower) &&
    (match rest.drop kw.length with
     | [] => true
     | d :: _ => !isWordChar d)

/-- Scanner for `/\bKW\b/i` (with `kw` lowercase and consisting of word
characters): at each position, the word matches when the previous character is
not a word character, the keyword appears case-insensitively, and the
following character is not a word character. -/
def containsWordCIAux (kw : List Char) : Bool → List Char → Bool
  | _, [] => false
  | prevIsWord, c :: rest =>
    (!prevIsWord && kw.isPrefixOf ((c :: rest).map Char.toLower) &&
      (match (c :: rest).drop kw.length with
       | [] => true
       | d :: _ => !isWordChar d))
    || containsWordCIAux kw (isWordChar c) rest

/-- Test of `/\bKW\b/i` on a whole string (start of input is a non-word
position). -/
def containsWordCI (kw s : List Char) : Bool := containsWordCIAux kw false s

/-- Match `\s*\d+\.\s+([A-Za-z0-9_]+)` at the start of `s` and return the
capture group.  Maximal munch is exact for this pattern because whitespace,
digits, `.` and word characters are pairwise disjoint at each junction, so no
backtracking can succeed where the greedy scan fails. -/
def matchFirstTableAt (s : List Char) : Option (List Char) :=
  let s1 := s.dropWhile isWsChar
  let digits := s1.takeWhile Char.isDigit
  if digits.isEmpty then none
  else
    match s1.drop digits.length with
    | '.' :: s2 =>
      let ws := s2.takeWhile isWsChar
      if ws.isEmpty then none
      else
        let s3 := s2.drop ws.length
        let word := s3.takeWhile isWordChar
        if word.isEmpty then none else some word
    | _ => none

/-- Model of `FIRST_TABLE_REGEX.exec(schemaSummary)` for
`FIRST_TABLE_REGEX = /\n\s*\d+\.\s+([A-Za-z0-9_]+)/` (unnamed planning
variant, part_002): scan left to right for the first `'\n'` whose tail
matches the rest of the pattern, returning the captured table name. -/
def execFirstTableRegex : List Char → Option (List Char)
  | [] => none
  | c :: rest =>
    if c = '\n' then
      match matchFirstTableAt rest with
      | some w => some w
      | none => execFirstTableRegex rest
    else execFirstTableRegex rest

/-- A single-quote character, used to build SQL literals. -/
def sqChar : Char := '\''

/-- The fallback query listing tables (part_002 `buildSqlFromRequest`):
`SELECT name FROM sqlite_master WHERE type=`…`table`… etc., with single
quotes assembled explicitly. -/
def listTablesQuery : List Char :=
  ("SELECT name FROM sqlite_master WHERE type=".toList) ++ [sqChar] ++
    ("table".toList) ++ [sqChar] ++ (" AND name NOT LIKE ".toList) ++ [sqChar] ++
    ("sqlite_%".toList) ++ [sqChar] ++ (" ORDER BY name".toList)

/-- Model of `buildSqlFromRequest` (unnamed planning variant, part_002):
if the trimmed request looks like SQL (`/^\s*select\b/i`, `/^\s*with\b/i` or
`/\bfrom\b/i`) return it directly; otherwise fall back to selecting from the
first table found in the schema summary, or to listing the tables. -/
def buildSqlFromRequest (dataRequest schemaSummary : List Char) : List Char :=
  let trimmed := jsTrim dataRequest
  if matchesKeywordStart trimmed ("select".toList)
      || matchesKeywordStart trimmed ("with".toList)
      || containsWordCI ("from".toList) trimmed then
    trimmed
  else
    match execFirstTableRegex schemaSummary with
    | some firstTable =>
      ("SELECT * FROM ".toList) ++ firstTable ++ (" LIMIT 500".toList)
    | none => listTablesQuery

/-- The SQL string that the part_002 variant of `dataTool.execute` passes to
`db.prepare(sql).all()`: it is produced by `buildSqlFromRequest` from the
tool's `dataRequest` and `schemaSummary` inputs, with no LLM involved. -/
def variantExecutedSql (dataRequest schemaSummary : List Char) : List Char :=
  buildSqlFromRequest dataRequest schemaSummary

/-- The observable part of a `fetch` response used by the examples. -/
structure HttpResponse where
  ok : Bool
  status : Nat
  statusText : List Char
  body : List Char

/-- A filesystem modelled as a finite map from paths to file contents
(directories are implicit; `mkdirSync` does not change this map). -/
abbrev Fs := List (List Char × List Char)

/-- `existsSync` on the file map. -/
def fsExists (fs : Fs) (p : List Char) : Bool := fs.any (fun e => e.1 == p)

/-- `fs.writeFile`: replace the contents if the path exists, else add it. -/
def fsWrite (fs : Fs) (p c : List Char) : Fs :=
  if fs.any (fun e => e.1 == p) then
    fs.map (fun e => if e.1 == p then (p, c) else e)
  else fs ++ [(p, c)]

/-- `path.join(DATA_DIR, datasetName + ".db")` relative to the example
directory. -/
def getDbPath (datasetName : List Char) : List Char :=
  ("database/".toList) ++ datasetName ++ (".db".toList)

/-- The error message of a failed DB download:
`Failed to download DB from ${databaseUrl}. HTTP ${status} ${statusText}`. -/
def downloadDbErrorMessage (databaseUrl : List Char) (status : Nat)
    (statusText : List Char) : List Char :=
  ("Failed to download DB from ".toList) ++ databaseUrl ++ (". HTTP ".toList) ++
    natToDecimal status ++ ' ' :: statusText

/-- Model of `downloadDatabaseIfMissing` (6-planning/index.ts).  Inputs are
the current filesystem and the response `fetch(databaseUrl)` would produce;
outputs are the filesystem after the call, the number of fetches performed,
and either the database path or the thrown error. -/
def downloadDatabaseIfMissing (datasetName databaseUrl : List Char) (fs : Fs)
    (response : HttpResponse) : Fs × Nat × Except (List Char) (List Char) :=
  let dbPath := getDbPath datasetName
  if fsExists fs dbPath then
    (fs, 0, .ok dbPath)
  else if response.ok = false then
    (fs, 1, .error (downloadDbErrorMessage databaseUrl response.status response.statusText))
  else
    (fsWrite fs dbPath response.body, 1, .ok dbPath)

/-- The fixed message thrown by the RAG example when the downloaded text is
too short (14-rag `runIndexing`). -/
def ragDownloadFailedMsg : List Char :=
  ("Failed to download State of the Union text.".toList)

/-- Model of the RAG example's download check (14-rag `runIndexing`): the
response body is accepted unless it is shorter than 1000 characters;
`response.ok`, the status code and the status text are never consulted. -/
def ragDownloadCheck (fullText : List Char) : Except (List Char) Unit :=
  if fullText.length < 1000 then .error ragDownloadFailedMsg else .ok ()

/-- The mutable module-level state of the planning example, threaded
explicitly, plus a trace of the SQL strings passed to
`db.prepare(sql).all()` (instrumentation for frame properties). -/
structure ToolState where
  dataPointCounter : Nat
  collectedData : List (List Char × List JsValue)
  executedSql : List (List Char)

/-- The initial module state: `let dataPointCounter = 1`,
`const collectedData = {}`. -/
def initialToolState : ToolState := ⟨1, [], []⟩

/-- One invocation of `dataTool.execute`, together with the responses of its
two external effects: whether `existsSync(dbPath)` holds, the text returned
by the SQL-generator LLM, and the row set the SQLite engine returns for the
executed query. -/
structure CallSpec where
  datasetName : List Char
  dataRequest : List Char
  dbExists : Bool
  generatedText : List Char
  rows : List JsValue

/-- The value returned by a successful `dataTool.execute` call. -/
structure ToolSuccess where
  dataFile : List Char
  previewJson : List Char

/-- The data key built by `dataTool.execute`:
`${authoritativeDatasetName}_${pointId}`. -/
def dataKeyOf (name : List Char) (k : Nat) : List Char :=
  name ++ '_' :: natToDecimal k

/-- JavaScript object property assignment `m[k] = v` on an insertion-ordered
object: an existing key keeps its position and gets the new value, a new key
is appended. -/
def objSet (m : List (List Char × List JsValue)) (k : List Char)
    (v : List JsValue) : List (List Char × List JsValue) :=
  if m.any (fun p => p.1 == k) then
    m.map (fun p => if p.1 == k then (k, v) else p)
  else m ++ [(k, v)]

/-- The error message for a missing database file. -/
def dbNotFoundMsg (dbPath : List Char) : List Char :=
  ("[dataTool] Database file not found at ".toList) ++ dbPath ++
    (". It should be downloaded during initialization before invoking the planner.".toList)

/-- The error message for an empty generated query. -/
def emptySqlMsg : List Char :=
  ("[dataTool] SQL generator returned an empty query.".toList)

/-- Model of `dataTool.execute` (6-planning/index.ts), in source order:
check `existsSync(dbPath)`; obtain the generator text and trim it; throw if
it is empty; execute the SQL (recorded in `executedSql`); then increment
`dataPointCounter`, store the rows in `collectedData`, and return the data
key with the truncated preview.  A throw leaves the state exactly as it was
at the throw point. -/
def dataToolExecute (st : ToolState) (c : CallSpec) :
    ToolState × Except (List Char) ToolSuccess :=
  if c.dbExists = false then
    (st, .error (dbNotFoundMsg (getDbPath c.datasetName)))
  else
    let sql := jsTrim c.generatedText
    if sql.isEmpty then
      (st, .error emptySqlMsg)
    else
      let stExec := { st with executedSql := st.executedSql ++ [sql] }
      let pointId := stExec.dataPointCounter
      let stCounted := { stExec with dataPointCounter := pointId + 1 }
      let dataKey := dataKeyOf c.datasetName pointId
      let stStored :=
        { stCounted with collectedData := objSet stCounted.collectedData dataKey c.rows }
      (stStored, .ok ⟨dataKey, buildPreviewJson c.rows⟩)

/-- A sequence of `dataTool` calls within one run, threading the module
state. -/
def runCalls (st : ToolState) : List CallSpec →
    ToolState × List (Except (List Char) ToolSuccess)
  | [] => (st, [])
  | c :: rest =>
    let step := dataToolExecute st c
    let next := runCalls step.1 rest
    (next.1, step.2 :: next.2)

/-- Whether a call runs to completion (database present, generator text
nonempty after trimming). -/
def callSucceeds (c : CallSpec) : Bool :=
  c.dbExists && !(jsTrim c.generatedText).isEmpty

/-- The calls of a run that succeed. -/
def successfulCalls (cs : List CallSpec) : List CallSpec := cs.filter callSucceeds

/-- The `dataFile` keys of the successful results, in order. -/
def okKeys (rs : List (Except (List Char) ToolSuccess)) : List (List Char) :=
  rs.filterMap (fun r => match r with | .ok s => some s.dataFile | .error _ => none)

/-- Invariant tying `collectedData` to `dataPointCounter`: every stored key
was built from a point id smaller than the current counter. -/
def KeysBelow (st : ToolState) : Prop :=
  ∀ p ∈ st.collectedData, ∃ name k, p.1 = dataKeyOf name k ∧ k < st.dataPointCounter

/-- The object injected as `window.dashboardData` by `wrapHtml`:
`collectedData` with each stored row set as a JSON array. -/
def dashboardDataObject (st : ToolState) : JsValue :=
  .obj (st.collectedData.map (fun p => (p.1, .arr p.2)))

/-- The `dataScript` string built by `wrapHtml`:
`<script>window.dashboardData = ${JSON.stringify(collectedData)};</script>`. -/
def dashboardDataScript (st : ToolState) : List Char :=
  ("<script>window.dashboardData = ".toList) ++
    stringifyCompact (dashboardDataObject st) ++ (";</script>".toList)

/-- Number of top-level entries of a serialized object. -/
def objEntryCount : JsValue → Nat
  | .obj fs => fs.length
  | _ => 0

/-- The fixed HTML of the dashboard template before the rendered `body`. -/
def dashboardHtmlHead : List Char :=
  ("<!DOCTYPE html>\n<html lang=\"en\">\n  <head>\n    <meta charset=\"utf-8\" />\n    <title>Generated Dashboard</title>\n    <link\n      href=\"https://cdn.jsdelivr.net/npm/bootstrap@5/dist/css/bootstrap.min.css\"\n      rel=\"stylesheet\"\n    />\n    <script src=\"https://cdn.jsdelivr.net/npm/chart.js@4/dist/chart.umd.min.js\"></script>\n  </head>\n  ".toList)

/-- Model of `wrapHtml` (6-planning/index.ts): the rendered dashboard
template with the generated body and the data script substituted. -/
def wrapHtml (body : List Char) (st : ToolState) : List Char :=
  dashboardHtmlHead ++ body ++ ("\n  ".toList) ++ dashboardDataScript st ++
    ("\n</html>".toList)

/-- `CONCURRENCY_LIMIT` of the RAG example (14-rag). -/
def CONCURRENCY_LIMIT : Nat := 20

/-- Modelled from the spec: the imported scripting DSL runtime (not part of
this repository) executes an annotated loop by giving each iteration `i` a
half-open execution interval; the schedule records those intervals. -/
structure LoopSchedule where
  start : Nat → Nat
  finish : Nat → Nat

/-- Number of iterations of `0..n-1` in flight at time `t`. -/
def runningAt (n : Nat) (s : LoopSchedule) (t : Nat) : Nat :=
  (List.range n).countP (fun i => decide (s.start i ≤ t ∧ t < s.finish i))

/-- Modelled from the spec: the schedules admitted by a loop annotated
`for ... of LIMIT` are those that never exceed the declared ceiling. -/
def WithinConcurrencyCeiling (n limit : Nat) (s : LoopSchedule) : Prop :=
  ∀ t, runningAt n s t ≤ limit

/-- Modelled from the spec: the schedules admitted for the `db!` sequential
path run one iteration at a time, in list order (each iteration takes some
time, and the next one starts only after the previous finished). -/
def StrictSequential (n : Nat) (s : LoopSchedule) : Prop :=
  (∀ i < n, s.start i < s.finish i) ∧ (∀ i, i + 1 < n → s.finish i ≤ s.start (i + 1))

/-- A chunk produced by the semantic chunker; the embedding-vector payload is
an arbitrary type parameter (vector arithmetic happens outside this
repository). -/
structure RawChunk (V : Type) where
  text : List Char
  vector : V

/-- An item of the file-based vector index. -/
structure IndexItem (V : Type) where
  vector : V
  text : List Char

/-- The `db.insert` payload built from one chunk (indexingAgent script). -/
def chunkToItem {V : Type} (c : RawChunk V) : IndexItem V :=
  ⟨c.vector, c.text⟩

/-- Modelled from the spec: the effect of the indexing script's sequential
`db!.insert` loop on the index contents, inserting one item per chunk in
list order. -/
def runIndexingScript {V : Type} (rawChunks : List (RawChunk V)) : List (IndexItem V) :=
  rawChunks.foldl (fun idx chunk => idx ++ [chunkToItem chunk]) []

/-- Modelled from the spec: `index.queryItems(queryVector, query, 20)` of the
external vector store returns the best-scoring items; `ranked` is the index
contents ordered by similarity to the query, of which the top 20 are
returned, and `queryVectorDb` maps them to their stored texts. -/
def queryVectorDb (ranked : List (List Char)) : List (List Char) :=
  ranked.take 20

/-- The `stats` record of the RAG agent output. -/
structure RagStats where
  found : Nat
  verified : Nat

/-- The output of the RAG agent script, including (for verification) the
chunk list handed to the synthesizer. -/
structure RagOutput where
  stats : RagStats
  chunksForSynthesis : List (List Char)
  answer : List Char

/-- Model of the `ragAgent` script (14-rag): retrieve candidates, keep those
the relevance filter marks `isRelevant` (the filter and synthesizer are
external LLM calls, passed as oracles), report `found`/`verified` counts, and
synthesize from the verified chunks only. -/
def ragAgentRun (ranked : List (List Char)) (isRel : List Char → Bool)
    (synth : List Char → List (List Char) → List Char) (query : List Char) :
    RagOutput :=
  let candidates := queryVectorDb ranked
  let verifiedChunks := candidates.filter isRel
  { stats := ⟨candidates.length, verifiedChunks.length⟩
    chunksForSynthesis := verifiedChunks
    answer := synth query verifiedChunks }

/-- A natural-language data request with no SQL-looking keywords. -/
def demoDataRequest : List Char := "show the ten most recent orders".toList

/-- A natural-language data request containing the word `from`. -/
def demoFromRequest : List Char := "sum revenue from all orders".toList

/-- A schema summary in the format produced by `extractSchemaSummary`. -/
def demoSchemaSummary : List Char :=
  "Dataset: shop\n\nTables:\n\n1. orders\n   - id (INTEGER, primary key)".toList

/-- A `dataTool` call whose generator returned only whitespace. -/
def demoCallEmpty : CallSpec :=
  ⟨"sales".toList, "total revenue per month".toList, true, "   ".toList, []⟩

/-- A `dataTool` call that succeeds. -/
def demoCallOk : CallSpec :=
  ⟨"sales".toList, "total revenue per month".toList, true,
    "\nSELECT month, revenue FROM sales_by_month LIMIT 12\n".toList,
    [JsValue.obj [("month".toList, JsValue.num 1), ("revenue".toList, JsValue.num 420)]]⟩

/-- A filesystem already holding the `sales` database file. -/
def demoFs : Fs := [(getDbPath ("sales".toList), "sqlite-bytes".toList)]

/-- A failed HTTP response. -/
def demoResponseBad : HttpResponse := ⟨false, 404, "Not Found".toList, []⟩

/-- Whether `pat` occurs as a contiguous substring of `s`. -/
def containsSeq (pat : List Char) : List Char → Bool
  | [] => pat.isEmpty
  | c :: rest => pat.isPrefixOf (c :: rest) || containsSeq pat rest

/-- A fully populated `input.json` record. -/
def demoInputRecord : RawDashboardInput :=
  ⟨some ("sales".toList), some ("sales db".toList),
    some ("http://example.com/db".toList), some ("make a dashboard".toList)⟩

/-- A strictly sequential two-iteration schedule. -/
def demoSched : LoopSchedule := ⟨fun i => 2 * i, fun i => 2 * i + 1⟩

/-- A small ranked candidate list. -/
def demoRanked : List (List Char) :=
  ["alpha".toList, "beta".toList, "gamma".toList]

/-- A concrete relevance oracle. -/
def demoIsRel (s : List Char) : Bool := s.length ≤ 4

/-- A concrete synthesizer oracle. -/
def demoSynth (q : List Char) (cs : List (List Char)) : List Char := q ++ cs.flatten

end CasaiExamples

namespace CasaiExamples

theorem digitChar_toNat {m : Nat} (h : m < 10) : (digitChar m).toNat - 48 = m := by
  interval_cases m <;> rfl

theorem digitChar_ne_underscore (m : Nat) : digitChar m ≠ '_' := by
  unfold digitChar
  split_ifs <;> decide

theorem natToDecimalAux_succ (fuel n : Nat) :
    natToDecimalAux (fuel + 1) n =
      if n < 10 then [digitChar n]
      else natToDecimalAux fuel (n / 10) ++ [digitChar (n % 10)] := rfl

theorem natToDecimalAux_congr :
    ∀ f₁ f₂ n, n < f₁ → n < f₂ → natToDecimalAux f₁ n = natToDecimalAux f₂ n := by
  intro f₁
  induction f₁ with
  | zero => intro f₂ n h₁ _; omega
  | succ g ih =>
    intro f₂ n h₁ h₂
    cases f₂ with
    | zero => omega
    | succ h =>
      by_cases hn : n < 10
      · simp [natToDecimalAux, hn]
      · have hdiv : n / 10 < n := Nat.div_lt_self (by omega) (by omega)
        simp only [natToDecimalAux, hn, if_false]
        rw [ih h (n / 10) (by omega) (by omega)]

theorem natToDecimal_eq (n : Nat) :
    natToDecimal n =
      if n < 10 then [digitChar n]
      else natToDecimal (n / 10) ++ [digitChar (n % 10)] := by
  by_cases hn : n < 10
  · simp [natToDecimal, natToDecimalAux_succ, hn]
  · have h1 : natToDecimal n = natToDecimalAux n (n / 10) ++ [digitChar (n % 10)] := by
      simp [natToDecimal, natToDecimalAux_succ, hn]
    rw [h1, natToDecimalAux_congr n (n / 10 + 1) (n / 10) (by omega) (by omega)]
    simp [natToDecimal, hn]

theorem decimalVal_natToDecimal (n : Nat) : decimalVal (natToDecimal n) = n := by
  induction n using Nat.strong_induction_on with
  | _ n ih =>
    rw [natToDecimal_eq]
    by_cases hn : n < 10
    · simp only [hn, if_true, decimalVal, List.foldl_cons, List.foldl_nil]
      rw [Nat.mul_zero, Nat.zero_add, digitChar_toNat hn]
    · have hdiv : n / 10 < n := Nat.div_lt_self (by omega) (by omega)
      simp only [hn, if_false, decimalVal, List.foldl_append, List.foldl_cons,
        List.foldl_nil]
      have := ih (n / 10) hdiv
      simp only [decimalVal] at this
      rw [this, digitChar_toNat (Nat.mod_lt n (by omega))]
      omega

theorem natToDecimal_inj {a b : Nat} (h : natToDecimal a = natToDecimal b) :
    a = b := by
  have ha := decimalVal_natToDecimal a
  have hb := decimalVal_natToDecimal b
  rw [h] at ha; omega

theorem underscore_not_mem_natToDecimal (n : Nat) : '_' ∉ natToDecimal n := by
  induction n using Nat.strong_induction_on with
  | _ n ih =>
    rw [natToDecimal_eq]
    by_cases hn : n < 10
    · simp only [hn, if_true, List.mem_singleton]
      exact fun h => digitChar_ne_underscore n h.symm
    · have hdiv : n / 10 < n := Nat.div_lt_self (by omega) (by omega)
      simp only [hn, if_false, List.mem_append, List.mem_singleton]
      rintro (h | h)
      · exact ih (n / 10) hdiv h
      · exact digitChar_ne_underscore (n % 10) h.symm

theorem stringifyF_arr_cons (f d : Nat) (x : JsValue) (xs : List JsValue) :
    stringifyF (f + 1) d (.arr (x :: xs)) =
      ('[' :: '\n' :: []) ++
        List.intercalate (',' :: '\n' :: [])
          (((x :: xs).map (stringifyF f (d + 1))).map
            (fun item => indentChars (d + 1) ++ item)) ++
        ('\n' :: indentChars d) ++ [']'] := rfl

theorem previewSerialize_arr_cons_shape (x : JsValue) (xs : List JsValue) :
    ∃ A, previewSerialize (.arr (x :: xs)) = A ++ ['\n', ']'] := by
  have h1 : jsSize (.arr (x :: xs)) = 1 + jsSizeList (x :: xs) := by
    simp [jsSize]
  obtain ⟨k, hk⟩ : ∃ k, jsSize (.arr (x :: xs)) = k + 1 :=
    ⟨jsSizeList (x :: xs), by omega⟩
  refine ⟨('[' :: '\n' :: []) ++
      List.intercalate (',' :: '\n' :: [])
        (((x :: xs).map (stringifyF k 1)).map
          (fun item => indentChars 1 ++ item)), ?_⟩
  rw [previewSerialize, hk, stringifyF_arr_cons]
  simp [indentChars]

theorem jsReplaceTrailingBracket_append (A repl : List Char) :
    jsReplaceTrailingBracket (A ++ ['\n', ']']) repl = A ++ repl := by
  have hsuf : (('\n' :: [']']).isSuffixOf (A ++ ['\n', ']'])) = true := by
    rw [List.isSuffixOf_iff_suffix]
    exact List.suffix_append A ['\n', ']']
  have hlen : (A ++ ['\n', ']']).length - 2 = A.length := by
    simp
  rw [jsReplaceTrailingBracket, if_pos hsuf, hlen, List.take_left]

/-- Claim C1: for every row array returned by the SQL query, the preview JSON
built by `dataTool.execute` follows the fixed truncation rule: with at most 5
rows it is the pretty-printed JSON of the whole array; with more than 5 rows
it is the pretty-printed JSON of exactly the first 3 rows whose closing
bracket is replaced by the `... N more items` note (so never more than 5 —
indeed never more than 3 — full rows are shown). -/
theorem preview_truncation_rule (rows : List JsValue) :
    buildPreviewJson rows =
      (if rows.length ≤ 5 then previewSerialize (.arr rows)
       else
         (previewSerialize (.arr (rows.take 3))).take
             ((previewSerialize (.arr (rows.take 3))).length - 2) ++
           moreItemsNote (rows.length - 3)) ∧
    (5 < rows.length → (rows.take 3).length = 3) := by
  constructor
  · by_cases h : rows.length ≤ 5
    · simp [buildPreviewJson, h]
    · cases rows with
      | nil => simp at h
      | cons r rest =>
        have htake : (r :: rest).take 3 = r :: rest.take 2 := rfl
        obtain ⟨A, hA⟩ := previewSerialize_arr_cons_shape r (rest.take 2)
        rw [← htake] at hA
        simp only [buildPreviewJson, h, if_false, hA,
          jsReplaceTrailingBracket_append]
        have hlen2 : (A ++ ['\n', ']']).length - 2 = A.length := by simp
        rw [hlen2, List.take_left]
  · intro h
    rw [List.length_take]
    omega

/-- Witness for C1 at a concrete six-row array (the truncating branch). -/
theorem preview_truncation_rule_witness :
    5 < (List.replicate 6 JsValue.null).length ∧
    ((List.replicate 6 JsValue.null).take 3).length = 3 :=
  ⟨by decide, (preview_truncation_rule (List.replicate 6 JsValue.null)).2 (by decide)⟩

theorem jsTruthyField_eq_true (o : Option (List Char)) :
    jsTruthyField o = true ↔ ∃ s, o = some s ∧ s ≠ [] := by
  cases o with
  | none => simp [jsTruthyField]
  | some s => simp [jsTruthyField]

/-- Claim C2: `loadInput` returns the parsed record exactly when all four
fields are present and non-empty, throws the fixed required-fields error for
every input in which some field is missing or empty, and applies no other
validation (the successful result is the parsed record unchanged, and the
only possible error is the required-fields message). -/
theorem loadInput_raises_iff (p : RawDashboardInput) :
    (loadInput p = .ok p ↔
      ((∃ s, p.datasetName = some s ∧ s ≠ []) ∧
       (∃ s, p.datasetDescription = some s ∧ s ≠ []) ∧
       (∃ s, p.databaseUrl = some s ∧ s ≠ []) ∧
       (∃ s, p.userRequest = some s ∧ s ≠ []))) ∧
    (loadInput p = .ok p ∨ loadInput p = .error inputErrorMsg) ∧
    (∀ q, loadInput p = .ok q → q = p) ∧
    (∀ e, loadInput p = .error e → e = inputErrorMsg) := by
  by_cases h1 : jsTruthyField p.datasetName = true <;>
    by_cases h2 : jsTruthyField p.datasetDescription = true <;>
    by_cases h3 : jsTruthyField p.databaseUrl = true <;>
    by_cases h4 : jsTruthyField p.userRequest = true <;>
    simp only [Bool.not_eq_true] at h1 h2 h3 h4 <;>
    simp [loadInput, h1, h2, h3, h4, ← jsTruthyField_eq_true]

/-- Witness for C2 on a fully populated input record. -/
theorem loadInput_raises_iff_witness :
    loadInput demoInputRecord = .ok demoInputRecord :=
  ((loadInput_raises_iff demoInputRecord).1).2
    ⟨⟨"sales".toList, rfl, by decide⟩, ⟨"sales db".toList, rfl, by decide⟩,
     ⟨"http://example.com/db".toList, rfl, by decide⟩,
     ⟨"make a dashboard".toList, rfl, by decide⟩⟩

/-- Claim C10: in the preview JSON, a bigint whose numeric conversion is a
safe integer (`|i| ≤ 2^53 - 1`) is serialized as a JSON number, any other
bigint as its decimal string, a Date as its ISO-8601 string, and every other
value passes through `previewReplacer` unchanged. -/
theorem preview_replacer_values :
    (∀ i : Int, i.natAbs ≤ jsMaxSafeInteger →
      previewReplacer (.bigint i) = .num i ∧
      previewSerialize (.bigint i) = intToDecimal i) ∧
    (∀ i : Int, jsMaxSafeInteger < i.natAbs →
      previewReplacer (.bigint i) = .str (intToDecimal i) ∧
      previewSerialize (.bigint i) = quoteString (intToDecimal i)) ∧
    (∀ iso : List Char,
      previewReplacer (.date iso) = .str iso ∧
      previewSerialize (.date iso) = quoteString iso) ∧
    (∀ v : JsValue, (∀ i, v ≠ .bigint i) → (∀ t, v ≠ .date t) →
      previewReplacer v = v) := by
  have hsz : ∀ i : Int, jsSize (.bigint i) = 1 := fun i => by simp [jsSize]
  have hszd : ∀ t : List Char, jsSize (.date t) = 1 := fun t => by simp [jsSize]
  refine ⟨?_, ?_, ?_, ?_⟩
  · intro i h
    have hrep : previewReplacer (.bigint i) = .num i := by
      simp [previewReplacer, h]
    refine ⟨hrep, ?_⟩
    rw [previewSerialize, hsz]
    show stringifyF (0 + 1) 0 (.bigint i) = intToDecimal i
    simp [stringifyF, hrep]
  · intro i h
    have hrep : previewReplacer (.bigint i) = .str (intToDecimal i) := by
      simp [previewReplacer]
      omega
    refine ⟨hrep, ?_⟩
    rw [previewSerialize, hsz]
    show stringifyF (0 + 1) 0 (.bigint i) = quoteString (intToDecimal i)
    simp [stringifyF, hrep]
  · intro iso
    refine ⟨rfl, ?_⟩
    rw [previewSerialize, hszd]
    rfl
  · intro v hb hd
    cases v with
    | bigint i => exact absurd rfl (hb i)
    | date t => exact absurd rfl (hd t)
    | null => rfl
    | bool b => rfl
    | num i => rfl
    | str s => rfl
    | arr xs => rfl
    | obj fs => rfl

/-- Witness for C10 at `2^53` (unsafe) and `7` (safe). -/
theorem preview_replacer_values_witness :
    ((7 : Int).natAbs ≤ jsMaxSafeInteger ∧
      previewSerialize (.bigint 7) = intToDecimal 7) ∧
    (jsMaxSafeInteger < ((2 : Int) ^ 53).natAbs ∧
      previewReplacer (.bigint (2 ^ 53)) = .str (intToDecimal (2 ^ 53))) :=
  ⟨⟨by decide, (preview_replacer_values.1 7 (by decide)).2⟩,
   ⟨by norm_num [jsMaxSafeInteger], (preview_replacer_values.2.1 (2 ^ 53)
      (by norm_num [jsMaxSafeInteger])).1⟩⟩

/-- Counterexample to claim C3 as stated: in the planning variant of
part_002, the SQL string executed against the database is produced by
`buildSqlFromRequest`, which inspects the request text with regexes and
falls back to a heuristic `SELECT * FROM <first table> LIMIT 500`; at the
natural-language request below the executed SQL is the fallback query, not
the trimmed text of any generator (no generator is invoked), and a request
merely containing the word `from` is passed through verbatim as SQL. -/
theorem sql_generation_counterexample :
    variantExecutedSql demoDataRequest demoSchemaSummary =
      ("SELECT * FROM orders LIMIT 500".toList) ∧
    variantExecutedSql demoDataRequest demoSchemaSummary ≠ jsTrim demoDataRequest ∧
    variantExecutedSql demoFromRequest demoSchemaSummary = jsTrim demoFromRequest := by
  refine ⟨?_, ?_, ?_⟩ <;> decide

/-- Claim C3 (amended): in the main planning example (6-planning/index.ts and
the template-based variant of part_003), the SQL executed by `dataTool` is
exactly the trimmed text returned by the LLM generator — one query per call,
no parsing, validation, retry, regex inspection of the request, or fallback
construction; the part_002 variant instead derives SQL from the request text
by regex checks with a heuristic fallback. -/
theorem executed_sql_is_trimmed_generator_text (st : ToolState) (c : CallSpec)
    (hdb : c.dbExists = true) (hne : (jsTrim c.generatedText).isEmpty = false) :
    (dataToolExecute st c).1.executedSql = st.executedSql ++ [jsTrim c.generatedText] ∧
    (dataToolExecute st c).2 =
      .ok ⟨dataKeyOf c.datasetName st.dataPointCounter, buildPreviewJson c.rows⟩ := by
  simp [dataToolExecute, hdb, hne]

/-- Witness for the amended C3 on a concrete successful call. -/
theorem executed_sql_is_trimmed_generator_text_witness :
    demoCallOk.dbExists = true ∧
    (jsTrim demoCallOk.generatedText).isEmpty = false ∧
    (dataToolExecute initialToolState demoCallOk).1.executedSql =
      initialToolState.executedSql ++ [jsTrim demoCallOk.generatedText] :=
  ⟨rfl, by decide,
    (executed_sql_is_trimmed_generator_text initialToolState demoCallOk rfl (by decide)).1⟩

/-- Counterexample to claim C4 as stated: the RAG example's text download
does not throw with an HTTP-status message — on a failed download (body
shorter than 1000 characters) it throws a fixed message that contains
neither the substring `HTTP` nor any digit. -/
theorem rag_download_message_counterexample :
    ragDownloadCheck ("Not Found".toList) = .error ragDownloadFailedMsg ∧
    containsSeq ("HTTP".toList) ragDownloadFailedMsg = false ∧
    ragDownloadFailedMsg.all (fun c => !c.isDigit) = true := by
  refine ⟨rfl, by decide, by decide⟩

/-- Claim C4 (amended): the planning example's `downloadDatabaseIfMissing`
throws an error reporting the HTTP status code and status text whenever the
response is not ok; the RAG example's text download instead throws the fixed
message `Failed to download State of the Union text.` (with no HTTP status)
whenever the downloaded text is shorter than 1000 characters. -/
theorem download_error_reporting :
    (∀ (name url : List Char) (fs : Fs) (r : HttpResponse),
      fsExists fs (getDbPath name) = false → r.ok = false →
      downloadDatabaseIfMissing name url fs r =
        (fs, 1, .error (downloadDbErrorMessage url r.status r.statusText)) ∧
      downloadDbErrorMessage url r.status r.statusText =
        ("Failed to download DB from ".toList) ++ url ++ (". HTTP ".toList) ++
          natToDecimal r.status ++ ' ' :: r.statusText) ∧
    (∀ t : List Char, t.length < 1000 →
      ragDownloadCheck t = .error ragDownloadFailedMsg) := by
  constructor
  · intro name url fs r hmiss hbad
    exact ⟨by simp [downloadDatabaseIfMissing, hmiss, hbad], rfl⟩
  · intro t ht
    simp [ragDownloadCheck, ht]

/-- Witness for the amended C4 on a concrete 404 response. -/
theorem download_error_reporting_witness :
    fsExists [] (getDbPath ("sales".toList)) = false ∧
    demoResponseBad.ok = false ∧
    downloadDatabaseIfMissing ("sales".toList) ("http://example.com/db".toList)
        [] demoResponseBad =
      ([], 1, .error (downloadDbErrorMessage ("http://example.com/db".toList)
        demoResponseBad.status demoResponseBad.statusText)) :=
  ⟨by decide, rfl,
    (download_error_reporting.1 ("sales".toList) ("http://example.com/db".toList)
      [] demoResponseBad (by decide) rfl).1⟩

/-- Claim C5: when the generator returns a whitespace-only query while the
database file is present, `dataTool.execute` throws the empty-query error and
the state is exactly as before the call — no SQL is executed (the execution
trace is unchanged), the data-point counter is not incremented, and
`collectedData` is untouched. -/
theorem empty_generated_sql_throws (st : ToolState) (c : CallSpec)
    (hdb : c.dbExists = true) (hsql : jsTrim c.generatedText = []) :
    dataToolExecute st c = (st, .error emptySqlMsg) := by
  simp [dataToolExecute, hdb, hsql]

/-- Witness for C5 on a generator that returned three spaces. -/
theorem empty_generated_sql_throws_witness :
    demoCallEmpty.dbExists = true ∧
    jsTrim demoCallEmpty.generatedText = [] ∧
    dataToolExecute initialToolState demoCallEmpty = (initialToolState, .error emptySqlMsg) :=
  ⟨rfl, by decide,
    empty_generated_sql_throws initialToolState demoCallEmpty rfl (by decide)⟩

/-- Claim C6: if the database file for `datasetName` already exists,
`downloadDatabaseIfMissing` returns its path performing no fetch and no
write (the filesystem is returned unchanged), and in every case at most one
fetch is performed — there is no retry logic beyond the single existence
check. -/
theorem skip_on_download_exists :
    (∀ (name url : List Char) (fs : Fs) (r : HttpResponse),
      fsExists fs (getDbPath name) = true →
      downloadDatabaseIfMissing name url fs r = (fs, 0, .ok (getDbPath name))) ∧
    (∀ (name url : List Char) (fs : Fs) (r : HttpResponse),
      (downloadDatabaseIfMissing name url fs r).2.1 ≤ 1) := by
  constructor
  · intro name url fs r h
    simp [downloadDatabaseIfMissing, h]
  · intro name url fs r
    simp only [downloadDatabaseIfMissing]
    split_ifs <;> simp

/-- Witness for C6 on a filesystem already holding the database file. -/
theorem skip_on_download_exists_witness :
    fsExists demoFs (getDbPath ("sales".toList)) = true ∧
    downloadDatabaseIfMissing ("sales".toList) ("http://example.com/db".toList)
        demoFs demoResponseBad = (demoFs, 0, .ok (getDbPath ("sales".toList))) :=
  ⟨by decide,
    skip_on_download_exists.1 ("sales".toList) ("http://example.com/db".toList)
      demoFs demoResponseBad (by decide)⟩

theorem append_sep_inj {d1 d2 : List Char} :
    ∀ A B : List Char, '_' ∉ d1 → '_' ∉ d2 →
      A ++ '_' :: d1 = B ++ '_' :: d2 → d1 = d2 := by
  intro A
  induction A with
  | nil =>
    intro B h1 h2 h
    cases B with
    | nil => simpa using h
    | cons b B' =>
      simp only [List.nil_append, List.cons_append, List.cons.injEq] at h
      exact absurd (h.2 ▸ List.mem_append.2 (Or.inr (List.mem_cons_self _ _))) h1
  | cons a A' ih =>
    intro B h1 h2 h
    cases B with
    | nil =>
      simp only [List.nil_append, List.cons_append, List.cons.injEq] at h
      exact absurd (h.2 ▸ List.mem_append.2 (Or.inr (List.mem_cons_self _ _))) h2
    | cons b B' =>
      simp only [List.cons_append, List.cons.injEq] at h
      exact ih B' h1 h2 h.2

theorem dataKeyOf_num_inj {n1 n2 : List Char} {k1 k2 : Nat}
    (h : dataKeyOf n1 k1 = dataKeyOf n2 k2) : k1 = k2 :=
  natToDecimal_inj
    (append_sep_inj n1 n2 (underscore_not_mem_natToDecimal k1)
      (underscore_not_mem_natToDecimal k2) h)

theorem dataToolExecute_success (st : ToolState) (c : CallSpec)
    (h : callSucceeds c = true) :
    dataToolExecute st c =
      ({ dataPointCounter := st.dataPointCounter + 1
         collectedData := objSet st.collectedData
           (dataKeyOf c.datasetName st.dataPointCounter) c.rows
         executedSql := st.executedSql ++ [jsTrim c.generatedText] },
       .ok ⟨dataKeyOf c.datasetName st.dataPointCounter, buildPreviewJson c.rows⟩) := by
  simp only [callSucceeds, Bool.and_eq_true, Bool.not_eq_true'] at h
  simp [dataToolExecute, h.1, h.2]

theorem dataToolExecute_failure (st : ToolState) (c : CallSpec)
    (h : callSucceeds c = false) :
    ∃ e, dataToolExecute st c = (st, .error e) := by
  by_cases hdb : c.dbExists = true
  · have hne : (jsTrim c.generatedText).isEmpty = true := by
      simp [callSucceeds, hdb] at h
      simpa using h
    exact ⟨emptySqlMsg, by simp [dataToolExecute, hdb, hne]⟩
  · have hdb' : c.dbExists = false := by simpa using hdb
    exact ⟨dbNotFoundMsg (getDbPath c.datasetName), by simp [dataToolExecute, hdb']⟩

theorem objSet_fresh (m : List (List Char × List JsValue)) (k : List Char)
    (v : List JsValue) (h : ∀ p ∈ m, p.1 ≠ k) :
    objSet m k v = m ++ [(k, v)] := by
  have hany : m.any (fun p => p.1 == k) = false := by
    simp only [List.any_eq_false]
    intro p hp
    simpa using h p hp
  simp [objSet, hany]

theorem runCalls_spec :
    ∀ (calls : List CallSpec) (st : ToolState), KeysBelow st →
      (runCalls st calls).1.dataPointCounter
          = st.dataPointCounter + (successfulCalls calls).length ∧
      (runCalls st calls).1.collectedData
          = st.collectedData ++
            ((successfulCalls calls).enumFrom st.dataPointCounter).map
              (fun p => (dataKeyOf p.2.datasetName p.1, p.2.rows)) ∧
      okKeys (runCalls st calls).2
          = ((successfulCalls calls).enumFrom st.dataPointCounter).map
              (fun p => dataKeyOf p.2.datasetName p.1) := by
  intro calls
  induction calls with
  | nil => intro st hst; simp [runCalls, successfulCalls, okKeys]
  | cons c rest ih =>
    intro st hst
    by_cases hc : callSucceeds c = true
    · have hfresh : ∀ p ∈ st.collectedData,
          p.1 ≠ dataKeyOf c.datasetName st.dataPointCounter := by
        intro p hp heq
        obtain ⟨name, k, hkey, hlt⟩ := hst p hp
        rw [hkey] at heq
        have := dataKeyOf_num_inj heq
        omega
      have hobj := objSet_fresh st.collectedData
        (dataKeyOf c.datasetName st.dataPointCounter) c.rows hfresh
      have hexec := dataToolExecute_success st c hc
      set st' : ToolState :=
        { dataPointCounter := st.dataPointCounter + 1
          collectedData := st.collectedData ++
            [(dataKeyOf c.datasetName st.dataPointCounter, c.rows)]
          executedSql := st.executedSql ++ [jsTrim c.generatedText] } with hst'
      have hexec' : dataToolExecute st c =
          (st', .ok ⟨dataKeyOf c.datasetName st.dataPointCounter,
            buildPreviewJson c.rows⟩) := by
        rw [hexec, hst', hobj]
      have hKB : KeysBelow st' := by
        intro p hp
        rw [hst'] at hp
        simp only [List.mem_append, List.mem_singleton] at hp
        rcases hp with hp | hp
        · obtain ⟨name, k, hkey, hlt⟩ := hst p hp
          exact ⟨name, k, hkey, by simp [hst']; omega⟩
        · exact ⟨c.datasetName, st.dataPointCounter, by rw [hp], by simp [hst']⟩
      obtain ⟨ihc, ihd, ihk⟩ := ih st' hKB
      have hsucc : successfulCalls (c :: rest) = c :: successfulCalls rest := by
        simp [successfulCalls, List.filter_cons, hc]
      have hrun : runCalls st (c :: rest) =
          ((runCalls st' rest).1,
            .ok (⟨dataKeyOf c.datasetName st.dataPointCounter,
              buildPreviewJson c.rows⟩ : ToolSuccess) :: (runCalls st' rest).2) := by
        simp [runCalls, hexec']
      refine ⟨?_, ?_, ?_⟩
      · rw [hrun]
        simp only [ihc, hsucc, List.length_cons, hst']
        omega
      · rw [hrun]
        simp only [ihd, hsucc, hst']
        simp [List.enumFrom, List.append_assoc]
      · rw [hrun]
        simp only [okKeys, List.filterMap_cons] at ihk ⊢
        simp only [ihk, hsucc, hst']
        simp [List.enumFrom]
    · have hc' : callSucceeds c = false := by simpa using hc
      obtain ⟨e, he⟩ := dataToolExecute_failure st c hc'
      obtain ⟨ihc, ihd, ihk⟩ := ih st hst
      have hsucc : successfulCalls (c :: rest) = successfulCalls rest := by
        simp [successfulCalls, List.filter_cons, hc']
      have hrun : runCalls st (c :: rest) =
          ((runCalls st rest).1, .error e :: (runCalls st rest).2) := by
        simp [runCalls, he]
      refine ⟨?_, ?_, ?_⟩
      · rw [hrun]; rw [ihc, hsucc]
      · rw [hrun]; rw [ihd, hsucc]
      · rw [hrun]
        simp only [okKeys, List.filterMap_cons] at ihk ⊢
        simp only [ihk, hsucc]

theorem enumFrom_fst_ge {α : Type} (l : List α) :
    ∀ (m : Nat) (p : Nat × α), p ∈ l.enumFrom m → m ≤ p.1 := by
  induction l with
  | nil => intro m p hp; simp [List.enumFrom] at hp
  | cons c rest ih =>
    intro m p hp
    simp only [List.enumFrom, List.mem_cons] at hp
    rcases hp with rfl | hp
    · exact le_refl m
    · have := ih (m + 1) p hp; omega

theorem enumFrom_dataKeys_nodup (l : List CallSpec) :
    ∀ n : Nat,
      ((l.enumFrom n).map (fun p => dataKeyOf p.2.datasetName p.1)).Nodup := by
  induction l with
  | nil => intro n; simp [List.enumFrom]
  | cons c rest ih =>
    intro n
    simp only [List.enumFrom, List.map_cons, List.nodup_cons]
    refine ⟨?_, ih (n + 1)⟩
    intro hmem
    obtain ⟨p, hp, heq⟩ := List.mem_map.1 hmem
    have hge : n + 1 ≤ p.1 := enumFrom_fst_ge rest (n + 1) p hp
    have := dataKeyOf_num_inj heq
    omega

/-- Claim C9: starting from the initial module state, the successful
`dataTool` calls of a run receive the keys `<datasetName>_<k>` with `k`
counting successes from 1 in call order; all keys are pairwise distinct, so
no entry of `collectedData` is ever overwritten (the final map holds exactly
one entry per successful call, in order), and the object injected as
`window.dashboardData` into the dashboard HTML has exactly one entry per
successful call. -/
theorem data_key_uniqueness (calls : List CallSpec) :
    (runCalls initialToolState calls).1.collectedData
        = ((successfulCalls calls).enumFrom 1).map
            (fun p => (dataKeyOf p.2.datasetName p.1, p.2.rows)) ∧
    okKeys (runCalls initialToolState calls).2
        = ((successfulCalls calls).enumFrom 1).map
            (fun p => dataKeyOf p.2.datasetName p.1) ∧
    ((runCalls initialToolState calls).1.collectedData.map Prod.fst).Nodup ∧
    objEntryCount (dashboardDataObject (runCalls initialToolState calls).1)
        = (successfulCalls calls).length := by
  have hinit : KeysBelow initialToolState := by
    intro p hp
    simp [initialToolState] at hp
  obtain ⟨hc, hd, hk⟩ := runCalls_spec calls initialToolState hinit
  have hd1 : (runCalls initialToolState calls).1.collectedData
      = ((successfulCalls calls).enumFrom 1).map
          (fun p => (dataKeyOf p.2.datasetName p.1, p.2.rows)) := by
    simpa [initialToolState] using hd
  refine ⟨hd1, by simpa [initialToolState] using hk, ?_, ?_⟩
  · rw [hd1, List.map_map]
    have hcomp :
        (Prod.fst ∘ fun p : Nat × CallSpec =>
          (dataKeyOf p.2.datasetName p.1, p.2.rows))
          = fun p : Nat × CallSpec => dataKeyOf p.2.datasetName p.1 := rfl
    rw [hcomp]
    exact enumFrom_dataKeys_nodup (successfulCalls calls) 1
  · rw [dashboardDataObject, hd1, objEntryCount]
    simp [List.enumFrom_length]

theorem countP_le_one_of_unique {p : Nat → Bool} :
    ∀ l : List Nat, l.Nodup →
      (∀ a ∈ l, ∀ b ∈ l, p a = true → p b = true → a = b) → l.countP p ≤ 1 := by
  intro l
  induction l with
  | nil => intro _ _; simp
  | cons a rest ih =>
    intro hnd huniq
    rw [List.countP_cons]
    rw [List.nodup_cons] at hnd
    by_cases hpa : p a = true
    · have hrest : rest.countP p = 0 := by
        rw [List.countP_eq_zero]
        intro b hb hpb
        have hba := huniq a (List.mem_cons_self _ _) b
          (List.mem_cons.2 (Or.inr hb)) hpa hpb
        exact hnd.1 (hba ▸ hb)
      simp [hrest, hpa]
    · have : rest.countP p ≤ 1 := by
        apply ih hnd.2
        intro x hx y hy hpx hpy
        exact huniq x (List.mem_cons.2 (Or.inr hx)) y (List.mem_cons.2 (Or.inr hy)) hpx hpy
      simp [hpa]
      omega

/-- Claim C7: the repository only declares its concurrency through the
DSL's annotations: `CONCURRENCY_LIMIT = 20` is the declared ceiling of the
relevance-filter loop (`for text in candidates of CONCURRENCY_LIMIT`), so
every schedule the external runtime may choose runs at most 20 filter calls
concurrently; the `db!` insertion path admits only one-at-a-time schedules in
list order (earlier iterations finish before later ones start, never more
than one in flight), and its effect is exactly one insertion per chunk in
list order. -/
theorem declared_concurrency_semantics :
    CONCURRENCY_LIMIT = 20 ∧
    (∀ (n : Nat) (s : LoopSchedule), WithinConcurrencyCeiling n CONCURRENCY_LIMIT s →
      ∀ t, runningAt n s t ≤ 20) ∧
    (∀ (n : Nat) (s : LoopSchedule), StrictSequential n s →
      (∀ i j, i < j → j < n → s.finish i ≤ s.start j) ∧
      (∀ t, runningAt n s t ≤ 1)) ∧
    (∀ (V : Type) (chunks : List (RawChunk V)),
      runIndexingScript chunks = chunks.map chunkToItem) := by
  refine ⟨rfl, ?_, ?_, ?_⟩
  · intro n s h t
    exact h t
  · intro n s hs
    obtain ⟨h1, h2⟩ := hs
    have chain : ∀ i j, i < j → j < n → s.finish i ≤ s.start j := by
      intro i j hij hjn
      obtain ⟨k, rfl⟩ : ∃ k, j = i + k + 1 := ⟨j - i - 1, by omega⟩
      clear hij
      induction k with
      | zero => exact h2 i (by omega)
      | succ m ihm =>
        have harith : i + (m + 1) + 1 = (i + m + 1) + 1 := by omega
        rw [harith] at hjn ⊢
        have hlt : s.finish i < s.start (i + m + 1 + 1) :=
          calc s.finish i ≤ s.start (i + m + 1) := ihm (by omega)
            _ < s.finish (i + m + 1) := h1 (i + m + 1) (by omega)
            _ ≤ s.start (i + m + 1 + 1) := h2 (i + m + 1) (by omega)
        exact le_of_lt hlt
    refine ⟨chain, ?_⟩
    intro t
    rw [runningAt]
    apply countP_le_one_of_unique (List.range n) (List.nodup_range n)
    intro a ha b hb hpa hpb
    simp only [decide_eq_true_eq] at hpa hpb
    by_contra hne
    rcases Nat.lt_or_ge a b with hab | hba
    · have := chain a b hab (List.mem_range.1 hb)
      omega
    · have hba' : b < a := by omega
      have := chain b a hba' (List.mem_range.1 ha)
      omega
  · intro V chunks
    rw [runIndexingScript]
    have hfold : ∀ (l : List (RawChunk V)) (acc : List (IndexItem V)),
        l.foldl (fun idx chunk => idx ++ [chunkToItem chunk]) acc
          = acc ++ l.map chunkToItem := by
      intro l
      induction l with
      | nil => intro acc; simp
      | cons x xs ihx => intro acc; simp [ihx]
    simpa using hfold chunks []

/-- Witness for C7 on a concrete two-iteration sequential schedule. -/
theorem declared_concurrency_semantics_witness :
    StrictSequential 2 demoSched ∧ runningAt 2 demoSched 0 ≤ 1 :=
  ⟨⟨fun i _ => by simp only [demoSched]; omega,
    fun i _ => by simp only [demoSched]; omega⟩,
   ((declared_concurrency_semantics.2.2.1 2 demoSched
      ⟨fun i _ => by simp only [demoSched]; omega,
       fun i _ => by simp only [demoSched]; omega⟩).2) 0⟩

/-- Claim C8: for every run of the RAG agent, `0 ≤ verified ≤ found ≤ 20`
(the lower bound being trivial for naturals), `found` is the number of
candidates returned by the vector query, `verified` is the number of
candidates the relevance filter marked relevant, and the synthesizer receives
exactly the verified chunks, each of which is a retrieved candidate. -/
theorem rag_stats_invariants (ranked : List (List Char)) (isRel : List Char → Bool)
    (synth : List Char → List (List Char) → List Char) (query : List Char) :
    (ragAgentRun ranked isRel synth query).stats.verified
        ≤ (ragAgentRun ranked isRel synth query).stats.found ∧
    (ragAgentRun ranked isRel synth query).stats.found ≤ 20 ∧
    (ragAgentRun ranked isRel synth query).stats.found
        = (queryVectorDb ranked).length ∧
    (ragAgentRun ranked isRel synth query).stats.verified
        = ((queryVectorDb ranked).filter isRel).length ∧
    (ragAgentRun ranked isRel synth query).chunksForSynthesis
        = (queryVectorDb ranked).filter isRel ∧
    (∀ chunk ∈ (ragAgentRun ranked isRel synth query).chunksForSynthesis,
      chunk ∈ queryVectorDb ranked ∧ isRel chunk = true ∧ chunk ∈ ranked) := by
  refine ⟨List.length_filter_le _ _, ?_, rfl, rfl, rfl, ?_⟩
  · show (queryVectorDb ranked).length ≤ 20
    rw [queryVectorDb, List.length_take]
    omega
  · intro chunk hc
    have h1 := List.mem_filter.1 hc
    refine ⟨h1.1, h1.2, ?_⟩
    have : chunk ∈ ranked.take 20 := by
      rw [queryVectorDb] at h1
      exact h1.1
    exact List.take_subset 20 ranked this

/-- Witness for C8 on a concrete three-candidate run, discharging the
membership hypothesis at the chunk `beta`. -/
theorem rag_stats_invariants_witness :
    ("beta".toList) ∈
        (ragAgentRun demoRanked demoIsRel demoSynth ("q".toList)).chunksForSynthesis ∧
    (("beta".toList) ∈ queryVectorDb demoRanked ∧
      demoIsRel ("beta".toList) = true ∧ ("beta".toList) ∈ demoRanked) :=
  ⟨by decide,
    (rag_stats_invariants demoRanked demoIsRel demoSynth ("q".toList)).2.2.2.2.2
      ("beta".toList) (by decide)⟩

end CasaiExamples
